import Mathlib

/-!
Verification development for the `rapid-math` repository (src/main.rs), a
single-screen arithmetic quiz game.  The behavioral core — the problem
generator `generate_problem`, the scoring routine `process_input`, and the
timer / game-over state machine in `update`, `display_game`,
`display_game_over` — is shallowly embedded below.

Modelling conventions:
* Rust `i32` values (scores, counters, answers) are modelled as `Int`;
  all values reachable in the program are far below the `i32` bounds
  (operands are at most 50, answers at most 2500 in magnitude), so
  wrap-around is unreachable and is not modelled.
* `std::time::Duration` is an unsigned quantity of nanoseconds, modelled
  as `Nat` nanoseconds; `Duration::checked_sub(..).unwrap_or(ZERO)` is
  exactly truncated `Nat` subtraction.
* `rand` draws are passed explicitly: `generate_problem` takes, besides
  the score, the three operand draws, the `gen_bool(0.3)` outcome and the
  operator draw.  The predicate `drawsValid` records exactly the ranges
  that `rng.gen_range` guarantees for those draws.
* `start_time : Option<Instant>` is observable in the core only through
  `is_some()` (the elapsed time is an input of the tick), so it is
  modelled as the `Bool` field `start_time`.
* `str::parse::<i32>` together with the preceding `trim()` is modelled by
  `parse_i32` (ASCII whitespace trimming, optional sign, decimal digits,
  `i32` range check).
* Rust integer division on `i32` truncates toward zero: `Int.tdiv`.
-/

/-! ### Characters and decimal rendering -/

/-- ASCII decimal digit test (codes 48–57). -/
def isDigitCh (c : Char) : Bool := decide (48 ≤ c.toNat ∧ c.toNat ≤ 57)

/-- ASCII whitespace test (space, tab, line feed, carriage return). -/
def isWsCh (c : Char) : Bool :=
  decide (c.toNat = 32 ∨ c.toNat = 9 ∨ c.toNat = 10 ∨ c.toNat = 13)

/-- The digit character for a value below ten. -/
def digitChar (k : Nat) : Char := Char.ofNat (48 + k)

/-- Numeric value of a digit character. -/
def digitVal (c : Char) : Nat := c.toNat - 48

/-- Fuel-driven decimal rendering of a natural number (most significant
digit first).  The fuel makes the definition structurally recursive, so
that it evaluates inside the kernel. -/
def natDigitsAux : Nat → Nat → List Char
  | 0, _ => []
  | fuel + 1, n =>
    if n < 10 then [digitChar n]
    else natDigitsAux fuel (n / 10) ++ [digitChar (n % 10)]

/-- Decimal rendering of a natural number, as produced by Rust's
`format!` for an unsigned value. -/
def natDigits (n : Nat) : List Char := natDigitsAux (n + 1) n

/-- Decimal rendering of an integer, as produced by Rust's `format!`
for an `i32` value. -/
def intChars (n : Int) : List Char :=
  if n < 0 then '-' :: natDigits n.natAbs else natDigits n.toNat

/-- String form of `intChars`. -/
def intToString (n : Int) : String := String.mk (intChars n)

/-! ### Model of `str::trim` and `str::parse::<i32>` -/

/-- Model of `str::trim`: drop whitespace from both ends. -/
def trimChars (l : List Char) : List Char :=
  ((l.dropWhile isWsCh).reverse.dropWhile isWsCh).reverse

/-- Optional leading sign of an integer literal; returns the negativity
flag and the remaining characters. -/
def parseSign : List Char → Bool × List Char
  | [] => (false, [])
  | c :: cs =>
    if c = '-' then (true, cs)
    else if c = '+' then (false, cs)
    else (false, c :: cs)

/-- Accumulate a decimal value over a character list; fails on the first
non-digit character. -/
def digitsToNatAux (acc : Nat) : List Char → Option Nat
  | [] => some acc
  | c :: cs =>
    if isDigitCh c then digitsToNatAux (acc * 10 + digitVal c) cs else none

/-- The `i32` range check of `str::parse::<i32>`. -/
def clampI32 (v : Int) : Option Int :=
  if -(2 ^ 31) ≤ v ∧ v ≤ 2 ^ 31 - 1 then some v else none

/-- Digits-and-sign part of `str::parse::<i32>`: a nonempty all-digit
run whose signed value fits in `i32`. -/
def parse_i32Digits (neg : Bool) (ds : List Char) : Option Int :=
  if ds.isEmpty then none
  else
    match digitsToNatAux 0 ds with
    | none => none
    | some m => clampI32 (if neg then -(m : Int) else (m : Int))

/-- Model of `s.trim().parse::<i32>()`: trim ASCII whitespace, read an
optional sign and a nonempty digit run, and require the value to fit in
`i32`. -/
def parse_i32 (s : String) : Option Int :=
  parse_i32Digits (parseSign (trimChars s.data)).1 (parseSign (trimChars s.data)).2

/-! ### Tokenizer for arithmetic expression strings -/

/-- Tokens of the arithmetic expression language emitted by
`generate_problem`. -/
inductive Tok where
  | num : Nat → Tok
  | plus : Tok
  | minus : Tok
  | star : Tok
  | slash : Tok
  | lparen : Tok
  | rparen : Tok
deriving DecidableEq

/-- Token for a single operator or parenthesis character. -/
def symTok (c : Char) : Option Tok :=
  if c = '+' then some Tok.plus
  else if c = '-' then some Tok.minus
  else if c = '*' then some Tok.star
  else if c = '/' then some Tok.slash
  else if c = '(' then some Tok.lparen
  else if c = ')' then some Tok.rparen
  else none

/-- Tokenizer worker: the accumulator holds the value of a digit run in
progress.  Whitespace separates tokens; any other unrecognized character
fails. -/
def tokAux : List Char → Option Nat → Option (List Tok)
  | [], none => some []
  | [], some n => some [Tok.num n]
  | c :: cs, acc =>
    if isDigitCh c then
      tokAux cs (some (acc.getD 0 * 10 + digitVal c))
    else
      let pre : List Tok := match acc with | some n => [Tok.num n] | none => []
      if isWsCh c then
        (tokAux cs none).map (fun ts => pre ++ ts)
      else
        match symTok c with
        | some t => (tokAux cs none).map (fun ts => pre ++ t :: ts)
        | none => none

/-- Tokenize a character list. -/
def tokenize (cs : List Char) : Option (List Tok) := tokAux cs none

/-! ### Precedence parser / evaluator -/

/-- Grammar level of the precedence parser: full expression, trailing
additive operators, term, trailing multiplicative operators, factor. -/
inductive PK where
  | expr : PK
  | exprOps : PK
  | term : PK
  | termOps : PK
  | factor : PK

/-- Fuel-driven recursive-descent evaluator with the standard two-level
precedence grammar (`+`/`-` below `*`/`/`, parentheses at the bottom),
left-associative operators, truncating integer division (`Int.tdiv`),
and failure on a zero divisor.  The `Int` argument is the left-hand
value already read, used by the two operator-loop levels. -/
def parseRun : Nat → PK → Int → List Tok → Option (Int × List Tok)
  | 0, _, _, _ => none
  | fuel + 1, PK.expr, _, toks =>
    (parseRun fuel PK.term 0 toks).bind (fun vr => parseRun fuel PK.exprOps vr.1 vr.2)
  | fuel + 1, PK.exprOps, v, toks =>
    match toks with
    | Tok.plus :: rest =>
      (parseRun fuel PK.term 0 rest).bind (fun wr => parseRun fuel PK.exprOps (v + wr.1) wr.2)
    | Tok.minus :: rest =>
      (parseRun fuel PK.term 0 rest).bind (fun wr => parseRun fuel PK.exprOps (v - wr.1) wr.2)
    | _ => some (v, toks)
  | fuel + 1, PK.term, _, toks =>
    (parseRun fuel PK.factor 0 toks).bind (fun vr => parseRun fuel PK.termOps vr.1 vr.2)
  | fuel + 1, PK.termOps, v, toks =>
    match toks with
    | Tok.star :: rest =>
      (parseRun fuel PK.factor 0 rest).bind (fun wr => parseRun fuel PK.termOps (v * wr.1) wr.2)
    | Tok.slash :: rest =>
      (parseRun fuel PK.factor 0 rest).bind
        (fun wr => if wr.1 = 0 then none else parseRun fuel PK.termOps (Int.tdiv v wr.1) wr.2)
    | _ => some (v, toks)
  | fuel + 1, PK.factor, _, toks =>
    match toks with
    | Tok.num n :: rest => some ((n : Int), rest)
    | Tok.lparen :: rest =>
      (parseRun fuel PK.expr 0 rest).bind
        (fun vr =>
          match vr.2 with
          | Tok.rparen :: r2 => some (vr.1, r2)
          | _ => none)
    | _ => none

/-- Evaluate an arithmetic expression string under standard operator
precedence with truncating integer division; `none` on a malformed
string or a division by zero. -/
def evalString (s : String) : Option Int :=
  match tokenize s.data with
  | none => none
  | some ts =>
    match parseRun (2 * ts.length + 16) PK.expr 0 ts with
    | some (v, []) => some v
    | _ => none

/-! ### The problem generator (src/main.rs lines 165–218) -/

/-- The random draws consumed by one call of `generate_problem`:
the three operand draws of `rng.gen_range(min..=max)`, the
`rng.gen_bool(0.3)` outcome, and the operator draw of
`rng.gen_range(0..2)` or `rng.gen_range(0..4)`. -/
structure Draws where
  n1 : Nat
  n2 : Nat
  n3 : Nat
  compound : Bool
  op : Nat
deriving DecidableEq

/-- Difficulty tier chosen from the score (lines 169–175):
`(min, max, include_complex_ops)`. -/
def tier (score : Int) : Nat × Nat × Bool :=
  if score < 5 then (1, 10, false)
  else if score < 10 then (1, 20, true)
  else (1, 50, true)

/-- The ranges that the `rand` calls guarantee for the draws:
operands in `min..=max` of the tier, and the operator draw below 2 on
the compound path (`gen_range(0..2)`) and below 4 on the simple path
(`gen_range(0..4)`). -/
def drawsValid (score : Int) (d : Draws) : Prop :=
  (tier score).1 ≤ d.n1 ∧ d.n1 ≤ (tier score).2.1 ∧
  (tier score).1 ≤ d.n2 ∧ d.n2 ≤ (tier score).2.1 ∧
  (tier score).1 ≤ d.n3 ∧ d.n3 ≤ (tier score).2.1 ∧
  (((tier score).2.2 && d.compound) = true → d.op < 2) ∧
  (((tier score).2.2 && d.compound) = false → d.op < 4)

instance (score : Int) (d : Draws) : Decidable (drawsValid score d) := by
  unfold drawsValid
  exact inferInstance

/-- Shallow embedding of `generate_problem` (lines 165–218).  The result
is `(question, answer, is_pemdas)`.  The expression strings spell out the
`format!` templates: for example the first compound form is
`format!("{} * ({} + {})", num1, num2, num3)`.  The `_` operator cases
are `unreachable!()` in the source (the draw is below 2, resp. 4); they
are mapped to a junk triple. -/
def generate_problem (score : Int) (d : Draws) : String × Int × Bool :=
  let include_complex_ops := (tier score).2.2
  let num1 := d.n1
  let num2 := d.n2
  let num3 := d.n3
  if include_complex_ops && d.compound then
    match d.op with
    | 0 =>
      (String.mk (natDigits num1 ++ ' ' :: '*' :: ' ' :: '(' ::
          (natDigits num2 ++ ' ' :: '+' :: ' ' :: (natDigits num3 ++ [')']))),
       (num1 : Int) * ((num2 : Int) + (num3 : Int)),
       true)
    | 1 =>
      (String.mk ('(' :: (natDigits (num1 + num3) ++ ' ' :: '-' :: ' ' ::
          (natDigits num2 ++ ')' :: ' ' :: '/' :: ' ' :: natDigits num3))),
       if num3 ≠ 0 then Int.tdiv ((num1 : Int) + (num3 : Int) - (num2 : Int)) (num3 : Int)
       else 0,
       true)
    | _ => ("", 0, true)
  else
    match d.op with
    | 0 =>
      (String.mk (natDigits num1 ++ ' ' :: '+' :: ' ' :: natDigits num2),
       (num1 : Int) + (num2 : Int), false)
    | 1 =>
      (String.mk (natDigits num1 ++ ' ' :: '-' :: ' ' :: natDigits num2),
       (num1 : Int) - (num2 : Int), false)
    | 2 =>
      (String.mk (natDigits num1 ++ ' ' :: '*' :: ' ' :: natDigits num2),
       (num1 : Int) * (num2 : Int), false)
    | 3 =>
      if num2 ≠ 0 then
        (String.mk (natDigits (num1 * num2) ++ ' ' :: '/' :: ' ' :: natDigits num2),
         (num1 : Int), false)
      else
        (String.mk (natDigits num1 ++ ' ' :: '+' :: ' ' :: natDigits 1),
         (num1 : Int) + 1, false)
    | _ => ("", 0, false)

/-! ### The application state (src/main.rs lines 5–17) -/

/-- State of `MathQuizApp`.  `remaining_time` is in nanoseconds;
`start_time` is the `is_some()` view of the `Option<Instant>` field. -/
structure MathQuizApp where
  question : String
  answer : Int
  user_input : String
  score : Int
  correct_answers : Int
  wrong_answers : Int
  remaining_time : Nat
  start_time : Bool
  feedback : String
  game_over : Bool
  is_pemdas : Bool
deriving DecidableEq

/-- Nanoseconds of `Duration::new(k, 0)`. -/
def secs (k : Nat) : Nat := k * 1000000000

/-- Shallow embedding of `MathQuizApp::default` (lines 19–36),
parameterized by the random draws of its `generate_problem(0)` call. -/
def MathQuizApp.default (d : Draws) : MathQuizApp :=
  let p := generate_problem 0 d
  { question := p.1
    answer := p.2.1
    user_input := ""
    score := 0
    correct_answers := 0
    wrong_answers := 0
    remaining_time := secs 30
    start_time := false
    feedback := "Press Start to begin!"
    game_over := false
    is_pemdas := p.2.2 }

/-- Shallow embedding of `MathQuizApp::process_input` (lines 123–162),
parameterized by the random draws of its `generate_problem(self.score)`
call.  On a parsed correct answer the score is bumped (by 2 on a PEMDAS
question, else 1) before the new problem is generated; on a parsed wrong
answer and on a parse failure two seconds are deducted with
`checked_sub(..).unwrap_or(ZERO)`; only the two parsed branches generate
a new problem; every branch clears the input buffer. -/
def process_input (s : MathQuizApp) (d : Draws) : MathQuizApp :=
  match parse_i32 s.user_input with
  | some user_answer =>
    if user_answer = s.answer then
      let score2 := s.score + (if s.is_pemdas then 2 else 1)
      let p := generate_problem score2 d
      { s with
        correct_answers := s.correct_answers + 1
        score := score2
        remaining_time := s.remaining_time + secs 1
        feedback := "Correct!"
        question := p.1
        answer := p.2.1
        is_pemdas := p.2.2
        user_input := "" }
    else
      let p := generate_problem s.score d
      { s with
        wrong_answers := s.wrong_answers + 1
        remaining_time := s.remaining_time - secs 2
        feedback := "Wrong! The correct answer was " ++ intToString s.answer ++ "."
        question := p.1
        answer := p.2.1
        is_pemdas := p.2.2
        user_input := "" }
  | none =>
    { s with
      wrong_answers := s.wrong_answers + 1
      remaining_time := s.remaining_time - secs 2
      feedback := "Invalid input. Try again!"
      user_input := "" }

/-- Shallow embedding of the timer logic at the top of `update`
(lines 40–49): runs only while `start_time` is set; `elapsed` (in
nanoseconds) is the measured `start.elapsed()`. -/
def tickEvent (s : MathQuizApp) (elapsed : Nat) : MathQuizApp :=
  if s.start_time then
    if s.remaining_time ≤ elapsed then
      { s with game_over := true, start_time := false }
    else
      { s with remaining_time := s.remaining_time - elapsed }
  else s

/-- Shallow embedding of the Start button handler (lines 99–104): the
button exists only while `start_time.is_none() && !game_over`. -/
def startEvent (s : MathQuizApp) : MathQuizApp :=
  if !s.start_time && !s.game_over then
    { s with start_time := true, feedback := "Solve the problems!" }
  else s

/-- Shallow embedding of an Enter-key submission of `input`
(lines 51–57 and 91–93): `display_game` — and with it the Enter-key
handler calling `process_input` — is reached exactly when
`game_over` is false; in the game-over screen a submission does
nothing. -/
def submitEvent (s : MathQuizApp) (input : String) (d : Draws) : MathQuizApp :=
  if s.game_over then s else process_input { s with user_input := input } d

/-- Shallow embedding of the Restart button handler (lines 117–119):
`*self = MathQuizApp::default()`. -/
def restart (_s : MathQuizApp) (d : Draws) : MathQuizApp := MathQuizApp.default d

/-- The three non-reset operations of the round state machine. -/
inductive Event where
  | start : Event
  | tick : Nat → Event
  | submit : String → Draws → Event

/-- One step of the state machine under a non-reset event. -/
def step (s : MathQuizApp) : Event → MathQuizApp
  | Event.start => startEvent s
  | Event.tick e => tickEvent s e
  | Event.submit input d => submitEvent s input d

/-! ### Facts about digits and decimal rendering -/

theorem digitChar_toNat {k : Nat} (h : k < 10) : (digitChar k).toNat = 48 + k := by
  interval_cases k <;> decide

theorem isDigitCh_digitChar {k : Nat} (h : k < 10) : isDigitCh (digitChar k) = true := by
  interval_cases k <;> decide

theorem digitVal_digitChar {k : Nat} (h : k < 10) : digitVal (digitChar k) = k := by
  interval_cases k <;> decide

theorem isWsCh_of_isDigitCh {c : Char} (h : isDigitCh c = true) : isWsCh c = false := by
  simp only [isDigitCh, decide_eq_true_eq] at h
  simp only [isWsCh, decide_eq_false_iff_not]
  omega

theorem ne_dash_of_isDigitCh {c : Char} (h : isDigitCh c = true) : c ≠ '-' := by
  intro hc
  subst hc
  exact absurd h (by decide)

theorem ne_plussign_of_isDigitCh {c : Char} (h : isDigitCh c = true) : c ≠ '+' := by
  intro hc
  subst hc
  exact absurd h (by decide)

theorem natDigitsAux_irrel (f1 : Nat) :
    ∀ f2 n, n < f1 → n < f2 → natDigitsAux f1 n = natDigitsAux f2 n := by
  induction f1 with
  | zero => intro f2 n h1 _; omega
  | succ f1 ih =>
    intro f2 n h1 h2
    cases f2 with
    | zero => omega
    | succ f2 =>
      simp only [natDigitsAux]
      by_cases h10 : n < 10
      · simp [h10]
      · simp only [h10, if_false]
        have hd : n / 10 < n := Nat.div_lt_self (by omega) (by omega)
        rw [ih f2 (n / 10) (by omega) (by omega)]

theorem natDigits_eq (n : Nat) :
    natDigits n = if n < 10 then [digitChar n]
      else natDigits (n / 10) ++ [digitChar (n % 10)] := by
  show natDigitsAux (n + 1) n = _
  by_cases h10 : n < 10
  · simp only [natDigitsAux, h10, if_true]
  · have hd : n / 10 < n := Nat.div_lt_self (by omega) (by omega)
    simp only [natDigitsAux, h10, if_false]
    rw [natDigitsAux_irrel n (n / 10 + 1) (n / 10) (by omega) (by omega)]
    rfl

theorem natDigits_ne_nil (n : Nat) : natDigits n ≠ [] := by
  rw [natDigits_eq]
  by_cases h10 : n < 10 <;> simp [h10]

theorem natDigits_all_digit (n : Nat) : ∀ c ∈ natDigits n, isDigitCh c = true := by
  induction n using Nat.strong_induction_on with
  | _ n ih =>
    rw [natDigits_eq]
    by_cases h10 : n < 10
    · simp only [h10, if_true, List.mem_singleton]
      intro c hc
      subst hc
      exact isDigitCh_digitChar h10
    · simp only [h10, if_false, List.mem_append, List.mem_singleton]
      intro c hc
      rcases hc with hc | hc
      · exact ih (n / 10) (Nat.div_lt_self (by omega) (by omega)) c hc
      · subst hc
        exact isDigitCh_digitChar (by omega)

theorem natDigits_foldl (n : Nat) :
    ∀ acc, List.foldl (fun a c => a * 10 + digitVal c) acc (natDigits n) =
      acc * 10 ^ (natDigits n).length + n := by
  induction n using Nat.strong_induction_on with
  | _ n ih =>
    intro acc
    rw [natDigits_eq]
    by_cases h10 : n < 10
    · simp only [h10, if_true, List.foldl_cons, List.foldl_nil, List.length_singleton,
        pow_one, digitVal_digitChar h10]
    · have hd : n / 10 < n := Nat.div_lt_self (by omega) (by omega)
      simp only [h10, if_false, List.foldl_append, List.foldl_cons, List.foldl_nil,
        List.length_append, List.length_singleton]
      rw [ih (n / 10) hd acc, digitVal_digitChar (show n % 10 < 10 by omega), pow_succ,
        ← mul_assoc]
      generalize acc * 10 ^ (natDigits (n / 10)).length = A
      omega

theorem natDigits_foldl_zero (n : Nat) :
    List.foldl (fun a c => a * 10 + digitVal c) 0 (natDigits n) = n := by
  rw [natDigits_foldl]
  simp

/-! ### Facts about `digitsToNatAux` and `parse_i32` -/

theorem digitsToNatAux_eq_foldl (ds : List Char) :
    ∀ acc, (∀ c ∈ ds, isDigitCh c = true) →
      digitsToNatAux acc ds = some (List.foldl (fun a c => a * 10 + digitVal c) acc ds) := by
  induction ds with
  | nil => intro acc _; simp [digitsToNatAux]
  | cons c cs ih =>
    intro acc h
    have hc : isDigitCh c = true := h c (by simp)
    simp only [digitsToNatAux, hc, if_true, List.foldl_cons]
    exact ih _ (fun x hx => h x (by simp [hx]))

theorem digitsToNatAux_natDigits (n : Nat) : digitsToNatAux 0 (natDigits n) = some n := by
  rw [digitsToNatAux_eq_foldl _ 0 (natDigits_all_digit n), natDigits_foldl_zero]

/-! ### Facts about trimming -/

theorem dropWhile_append_of_all {p : Char → Bool} (w r : List Char)
    (hw : ∀ c ∈ w, p c = true) :
    List.dropWhile p (w ++ r) = List.dropWhile p r := by
  induction w with
  | nil => simp
  | cons c cs ih =>
    have hc : p c = true := hw c (by simp)
    simp only [List.cons_append, List.dropWhile_cons, hc, if_true]
    exact ih (fun x hx => hw x (by simp [hx]))

theorem dropWhile_cons_of_neg {p : Char → Bool} (c : Char) (r : List Char)
    (hc : p c = false) : List.dropWhile p (c :: r) = c :: r := by
  simp [List.dropWhile_cons, hc]

theorem trimChars_sandwich (w1 w2 body : List Char) (hb : body ≠ [])
    (hws1 : ∀ c ∈ w1, isWsCh c = true) (hws2 : ∀ c ∈ w2, isWsCh c = true)
    (hbody : ∀ c ∈ body, isWsCh c = false) :
    trimChars (w1 ++ body ++ w2) = body := by
  obtain ⟨c, bs, rfl⟩ : ∃ c bs, body = c :: bs := by
    cases body with
    | nil => exact absurd rfl hb
    | cons c bs => exact ⟨c, bs, rfl⟩
  unfold trimChars
  rw [List.append_assoc]
  rw [dropWhile_append_of_all w1 ((c :: bs) ++ w2) hws1]
  rw [show (c :: bs) ++ w2 = c :: (bs ++ w2) from rfl]
  rw [dropWhile_cons_of_neg c (bs ++ w2) (hbody c (by simp))]
  rw [show c :: (bs ++ w2) = (c :: bs) ++ w2 from rfl, List.reverse_append]
  rw [dropWhile_append_of_all w2.reverse (c :: bs).reverse
    (fun x hx => hws2 x (List.mem_reverse.mp hx))]
  have hrevne : (c :: bs).reverse ≠ [] := by simp
  obtain ⟨d, ds, hrev⟩ : ∃ d ds, (c :: bs).reverse = d :: ds := by
    cases hrev2 : (c :: bs).reverse with
    | nil => exact absurd hrev2 hrevne
    | cons d ds => exact ⟨d, ds, rfl⟩
  have hd : isWsCh d = false := by
    apply hbody
    have : d ∈ (c :: bs).reverse := by rw [hrev]; simp
    exact List.mem_reverse.mp this
  rw [hrev, dropWhile_cons_of_neg d ds hd, ← hrev, List.reverse_reverse]

/-! ### Round trip: `parse_i32` reads back a rendered integer -/

theorem intChars_ne_nil (n : Int) : intChars n ≠ [] := by
  unfold intChars
  by_cases h : n < 0
  · simp [h]
  · simp only [h, if_false]
    exact natDigits_ne_nil n.toNat

theorem intChars_not_ws (n : Int) : ∀ c ∈ intChars n, isWsCh c = false := by
  unfold intChars
  by_cases h : n < 0
  · simp only [h, if_true, List.mem_cons]
    intro c hc
    rcases hc with hc | hc
    · subst hc; decide
    · exact isWsCh_of_isDigitCh (natDigits_all_digit _ c hc)
  · simp only [h, if_false]
    intro c hc
    exact isWsCh_of_isDigitCh (natDigits_all_digit _ c hc)

theorem natDigits_isEmpty (n : Nat) : (natDigits n).isEmpty = false := by
  cases h : natDigits n with
  | nil => exact absurd h (natDigits_ne_nil n)
  | cons c cs => rfl

theorem parseSign_natDigits (n : Nat) :
    parseSign (natDigits n) = (false, natDigits n) := by
  obtain ⟨c, cs, hcc⟩ : ∃ c cs, natDigits n = c :: cs := by
    cases h : natDigits n with
    | nil => exact absurd h (natDigits_ne_nil n)
    | cons c cs => exact ⟨c, cs, rfl⟩
  have hc : isDigitCh c = true := natDigits_all_digit n c (by rw [hcc]; simp)
  rw [hcc]
  simp only [parseSign]
  rw [if_neg (ne_dash_of_isDigitCh hc), if_neg (ne_plussign_of_isDigitCh hc)]

theorem parse_i32Digits_natDigits (neg : Bool) (m : Nat) :
    parse_i32Digits neg (natDigits m) =
      clampI32 (if neg then -(m : Int) else (m : Int)) := by
  unfold parse_i32Digits
  rw [natDigits_isEmpty m]
  simp only [Bool.false_eq_true, if_false, digitsToNatAux_natDigits m]

theorem parse_i32_round (n : Int) (w1 w2 : List Char)
    (hw1 : ∀ c ∈ w1, isWsCh c = true) (hw2 : ∀ c ∈ w2, isWsCh c = true)
    (h1 : -(2 ^ 31) ≤ n) (h2 : n ≤ 2 ^ 31 - 1) :
    parse_i32 (String.mk (w1 ++ intChars n ++ w2)) = some n := by
  unfold parse_i32
  rw [show (String.mk (w1 ++ intChars n ++ w2)).data = w1 ++ intChars n ++ w2 from rfl]
  rw [trimChars_sandwich w1 w2 (intChars n) (intChars_ne_nil n) hw1 hw2 (intChars_not_ws n)]
  by_cases hneg : n < 0
  · have hic : intChars n = '-' :: natDigits n.natAbs := by unfold intChars; rw [if_pos hneg]
    have hps : parseSign ('-' :: natDigits n.natAbs) = (true, natDigits n.natAbs) := by
      simp [parseSign]
    rw [hic, hps, parse_i32Digits_natDigits]
    have hv : (if true then -((n.natAbs : Nat) : Int) else ((n.natAbs : Nat) : Int)) = n := by
      simp only [if_true]
      omega
    rw [hv]
    unfold clampI32
    rw [if_pos ⟨h1, h2⟩]
  · have hic : intChars n = natDigits n.toNat := by unfold intChars; rw [if_neg hneg]
    rw [hic, parseSign_natDigits, parse_i32Digits_natDigits]
    have hv : (if false then -((n.toNat : Nat) : Int) else ((n.toNat : Nat) : Int)) = n := by
      simp only [Bool.false_eq_true, if_false]
      omega
    rw [hv]
    unfold clampI32
    rw [if_pos ⟨h1, h2⟩]

/-! ### Tokenizer facts -/

theorem tokAux_digits (ds : List Char) :
    ∀ rest acc, (∀ c ∈ ds, isDigitCh c = true) →
      tokAux (ds ++ rest) (some acc) =
        tokAux rest (some (List.foldl (fun a c => a * 10 + digitVal c) acc ds)) := by
  induction ds with
  | nil => intro rest acc _; simp
  | cons c cs ih =>
    intro rest acc h
    have hc : isDigitCh c = true := h c (by simp)
    simp only [List.cons_append, tokAux, hc, if_true, Option.getD_some, List.foldl_cons]
    exact ih rest _ (fun x hx => h x (by simp [hx]))

theorem tokAux_natDigits (n : Nat) (rest : List Char) :
    tokAux (natDigits n ++ rest) none = tokAux rest (some n) := by
  obtain ⟨c, cs, hcc⟩ : ∃ c cs, natDigits n = c :: cs := by
    cases h : natDigits n with
    | nil => exact absurd h (natDigits_ne_nil n)
    | cons c cs => exact ⟨c, cs, rfl⟩
  have hall : ∀ x ∈ natDigits n, isDigitCh x = true := natDigits_all_digit n
  have hc : isDigitCh c = true := hall c (by rw [hcc]; simp)
  rw [hcc, List.cons_append]
  simp only [tokAux, hc, if_true, Option.getD_none]
  rw [tokAux_digits cs rest _ (fun x hx => hall x (by rw [hcc]; simp [hx]))]
  have : List.foldl (fun a c => a * 10 + digitVal c) (0 * 10 + digitVal c) cs =
      List.foldl (fun a c => a * 10 + digitVal c) 0 (natDigits n) := by
    rw [hcc, List.foldl_cons]
  rw [this, natDigits_foldl_zero]

theorem tokAux_natDigits_nil (n : Nat) :
    tokAux (natDigits n) none = some [Tok.num n] := by
  have := tokAux_natDigits n []
  rw [List.append_nil] at this
  rw [this]
  rfl

theorem isDigitCh_space : isDigitCh ' ' = false := by decide

theorem isWsCh_space : isWsCh ' ' = true := by decide

theorem isDigitCh_plus : isDigitCh '+' = false := by decide

theorem isWsCh_plus : isWsCh '+' = false := by decide

theorem symTok_plus : symTok '+' = some Tok.plus := by decide

theorem isDigitCh_dash : isDigitCh '-' = false := by decide

theorem isWsCh_dash : isWsCh '-' = false := by decide

theorem symTok_dash : symTok '-' = some Tok.minus := by decide

theorem isDigitCh_star : isDigitCh '*' = false := by decide

theorem isWsCh_star : isWsCh '*' = false := by decide

theorem symTok_star : symTok '*' = some Tok.star := by decide

theorem isDigitCh_slash2 : isDigitCh '/' = false := by decide

theorem isWsCh_slash2 : isWsCh '/' = false := by decide

theorem symTok_slash2 : symTok '/' = some Tok.slash := by decide

theorem isDigitCh_lparen : isDigitCh '(' = false := by decide

theorem isWsCh_lparen : isWsCh '(' = false := by decide

theorem symTok_lparen : symTok '(' = some Tok.lparen := by decide

theorem isDigitCh_rparen : isDigitCh ')' = false := by decide

theorem isWsCh_rparen : isWsCh ')' = false := by decide

theorem symTok_rparen : symTok ')' = some Tok.rparen := by decide

theorem tokenize_simple (a b : Nat) (ch : Char) (t : Tok)
    (h1 : isDigitCh ch = false) (h2 : isWsCh ch = false) (h3 : symTok ch = some t) :
    tokenize (natDigits a ++ ' ' :: ch :: ' ' :: natDigits b) =
      some [Tok.num a, t, Tok.num b] := by
  unfold tokenize
  rw [tokAux_natDigits]
  simp [tokAux, tokAux_natDigits_nil, isDigitCh_space, isWsCh_space, h1, h2, h3]

theorem tokenize_mulsum (a b c : Nat) :
    tokenize (natDigits a ++ ' ' :: '*' :: ' ' :: '(' ::
        (natDigits b ++ ' ' :: '+' :: ' ' :: (natDigits c ++ [')']))) =
      some [Tok.num a, Tok.star, Tok.lparen, Tok.num b, Tok.plus, Tok.num c, Tok.rparen] := by
  unfold tokenize
  rw [tokAux_natDigits]
  simp [tokAux, tokAux_natDigits, tokAux_natDigits_nil, isDigitCh_space, isWsCh_space,
    isDigitCh_star, isWsCh_star, symTok_star, isDigitCh_lparen, isWsCh_lparen, symTok_lparen,
    isDigitCh_plus, isWsCh_plus, symTok_plus, isDigitCh_rparen, isWsCh_rparen, symTok_rparen]

theorem tokenize_diffdiv (a b c : Nat) :
    tokenize ('(' :: (natDigits a ++ ' ' :: '-' :: ' ' ::
        (natDigits b ++ ')' :: ' ' :: '/' :: ' ' :: natDigits c))) =
      some [Tok.lparen, Tok.num a, Tok.minus, Tok.num b, Tok.rparen, Tok.slash, Tok.num c] := by
  unfold tokenize
  simp [tokAux, tokAux_natDigits, tokAux_natDigits_nil, isDigitCh_space, isWsCh_space,
    isDigitCh_dash, isWsCh_dash, symTok_dash, isDigitCh_lparen, isWsCh_lparen, symTok_lparen,
    isDigitCh_slash2, isWsCh_slash2, symTok_slash2, isDigitCh_rparen, isWsCh_rparen,
    symTok_rparen]

/-! ### Parser shapes -/

theorem parseRun_add (fuel a b : Nat) (hf : 16 ≤ fuel) :
    parseRun fuel PK.expr 0 [Tok.num a, Tok.plus, Tok.num b] =
      some ((a : Int) + (b : Int), []) := by
  obtain ⟨f, rfl⟩ : ∃ f, fuel = f + 16 := ⟨fuel - 16, by omega⟩
  rfl

theorem parseRun_sub (fuel a b : Nat) (hf : 16 ≤ fuel) :
    parseRun fuel PK.expr 0 [Tok.num a, Tok.minus, Tok.num b] =
      some ((a : Int) - (b : Int), []) := by
  obtain ⟨f, rfl⟩ : ∃ f, fuel = f + 16 := ⟨fuel - 16, by omega⟩
  rfl

theorem parseRun_mul (fuel a b : Nat) (hf : 16 ≤ fuel) :
    parseRun fuel PK.expr 0 [Tok.num a, Tok.star, Tok.num b] =
      some ((a : Int) * (b : Int), []) := by
  obtain ⟨f, rfl⟩ : ∃ f, fuel = f + 16 := ⟨fuel - 16, by omega⟩
  rfl

theorem parseRun_div (fuel a b : Nat) (hf : 16 ≤ fuel) (hb : b ≠ 0) :
    parseRun fuel PK.expr 0 [Tok.num a, Tok.slash, Tok.num b] =
      some (Int.tdiv (a : Int) (b : Int), []) := by
  obtain ⟨f, rfl⟩ : ∃ f, fuel = f + 16 := ⟨fuel - 16, by omega⟩
  obtain ⟨b2, rfl⟩ : ∃ b2, b = b2 + 1 := ⟨b - 1, by omega⟩
  rfl

theorem parseRun_mulsum (fuel a b c : Nat) (hf : 16 ≤ fuel) :
    parseRun fuel PK.expr 0
      [Tok.num a, Tok.star, Tok.lparen, Tok.num b, Tok.plus, Tok.num c, Tok.rparen] =
      some ((a : Int) * ((b : Int) + (c : Int)), []) := by
  obtain ⟨f, rfl⟩ : ∃ f, fuel = f + 16 := ⟨fuel - 16, by omega⟩
  rfl

theorem parseRun_diffdiv (fuel a b c : Nat) (hf : 16 ≤ fuel) (hc : c ≠ 0) :
    parseRun fuel PK.expr 0
      [Tok.lparen, Tok.num a, Tok.minus, Tok.num b, Tok.rparen, Tok.slash, Tok.num c] =
      some (Int.tdiv ((a : Int) - (b : Int)) (c : Int), []) := by
  obtain ⟨f, rfl⟩ : ∃ f, fuel = f + 16 := ⟨fuel - 16, by omega⟩
  obtain ⟨c2, rfl⟩ : ∃ c2, c = c2 + 1 := ⟨c - 1, by omega⟩
  rfl

/-! ### Evaluation of the six expression shapes emitted by the generator -/

theorem evalString_add (a b : Nat) :
    evalString (String.mk (natDigits a ++ ' ' :: '+' :: ' ' :: natDigits b)) =
      some ((a : Int) + (b : Int)) := by
  unfold evalString
  rw [show (String.mk (natDigits a ++ ' ' :: '+' :: ' ' :: natDigits b)).data =
    natDigits a ++ ' ' :: '+' :: ' ' :: natDigits b from rfl]
  rw [tokenize_simple a b '+' Tok.plus isDigitCh_plus isWsCh_plus symTok_plus]
  simp [parseRun_add 22 a b (by omega)]

theorem evalString_sub (a b : Nat) :
    evalString (String.mk (natDigits a ++ ' ' :: '-' :: ' ' :: natDigits b)) =
      some ((a : Int) - (b : Int)) := by
  unfold evalString
  rw [show (String.mk (natDigits a ++ ' ' :: '-' :: ' ' :: natDigits b)).data =
    natDigits a ++ ' ' :: '-' :: ' ' :: natDigits b from rfl]
  rw [tokenize_simple a b '-' Tok.minus isDigitCh_dash isWsCh_dash symTok_dash]
  simp [parseRun_sub 22 a b (by omega)]

theorem evalString_mul (a b : Nat) :
    evalString (String.mk (natDigits a ++ ' ' :: '*' :: ' ' :: natDigits b)) =
      some ((a : Int) * (b : Int)) := by
  unfold evalString
  rw [show (String.mk (natDigits a ++ ' ' :: '*' :: ' ' :: natDigits b)).data =
    natDigits a ++ ' ' :: '*' :: ' ' :: natDigits b from rfl]
  rw [tokenize_simple a b '*' Tok.star isDigitCh_star isWsCh_star symTok_star]
  simp [parseRun_mul 22 a b (by omega)]

theorem evalString_div (a b : Nat) (hb : b ≠ 0) :
    evalString (String.mk (natDigits a ++ ' ' :: '/' :: ' ' :: natDigits b)) =
      some (Int.tdiv (a : Int) (b : Int)) := by
  unfold evalString
  rw [show (String.mk (natDigits a ++ ' ' :: '/' :: ' ' :: natDigits b)).data =
    natDigits a ++ ' ' :: '/' :: ' ' :: natDigits b from rfl]
  rw [tokenize_simple a b '/' Tok.slash isDigitCh_slash2 isWsCh_slash2 symTok_slash2]
  simp [parseRun_div 22 a b (by omega) hb]

theorem evalString_mulsum (a b c : Nat) :
    evalString (String.mk (natDigits a ++ ' ' :: '*' :: ' ' :: '(' ::
        (natDigits b ++ ' ' :: '+' :: ' ' :: (natDigits c ++ [')'])))) =
      some ((a : Int) * ((b : Int) + (c : Int))) := by
  unfold evalString
  rw [show (String.mk (natDigits a ++ ' ' :: '*' :: ' ' :: '(' ::
    (natDigits b ++ ' ' :: '+' :: ' ' :: (natDigits c ++ [')'])))).data =
    natDigits a ++ ' ' :: '*' :: ' ' :: '(' ::
    (natDigits b ++ ' ' :: '+' :: ' ' :: (natDigits c ++ [')'])) from rfl]
  rw [tokenize_mulsum a b c]
  simp [parseRun_mulsum 30 a b c (by omega)]

theorem evalString_diffdiv (a b c : Nat) (hc : c ≠ 0) :
    evalString (String.mk ('(' :: (natDigits a ++ ' ' :: '-' :: ' ' ::
        (natDigits b ++ ')' :: ' ' :: '/' :: ' ' :: natDigits c)))) =
      some (Int.tdiv ((a : Int) - (b : Int)) (c : Int)) := by
  unfold evalString
  rw [show (String.mk ('(' :: (natDigits a ++ ' ' :: '-' :: ' ' ::
    (natDigits b ++ ')' :: ' ' :: '/' :: ' ' :: natDigits c)))).data =
    '(' :: (natDigits a ++ ' ' :: '-' :: ' ' ::
    (natDigits b ++ ')' :: ' ' :: '/' :: ' ' :: natDigits c)) from rfl]
  rw [tokenize_diffdiv a b c]
  simp [parseRun_diffdiv 30 a b c (by omega) hc]

/-! ### Helper facts about the tiers -/

theorem tier_min (score : Int) : (tier score).1 = 1 := by
  unfold tier
  split_ifs <;> rfl

theorem tdiv_natCast (m n : Nat) :
    Int.tdiv (m : Int) (n : Int) = ((m / n : Nat) : Int) := rfl

/-- C1: for every Problem returned by `generate_problem` — any score, any
draws within the ranges that the `rand` calls produce, all four simple
operator forms and both compound forms — evaluating the expression string
under standard operator precedence with truncating integer division
yields exactly the returned answer.  The two zero-divisor fallback
branches (`n2 == 0`, `n3 == 0`) are inside the quantification over the
operator draws, but the range hypothesis makes their guards true, so the
emitted division expressions always carry a nonzero divisor (see the C10
theorem, which makes that unreachability explicit). -/
theorem C1_round_trip (score : Int) (d : Draws) (hv : drawsValid score d) :
    evalString (generate_problem score d).1 = some (generate_problem score d).2.1 := by
  obtain ⟨n1, n2, n3, cb, op⟩ := d
  obtain ⟨h1a, h1b, h2a, h2b, h3a, h3b, hop2, hop4⟩ := hv
  rw [tier_min] at h1a h2a h3a
  simp only at h1a h1b h2a h2b h3a h3b hop2 hop4
  by_cases hc : ((tier score).2.2 && cb) = true
  · have hop : op < 2 := hop2 hc
    simp only [generate_problem, hc, if_true]
    interval_cases op
    · exact evalString_mulsum n1 n2 n3
    · have hn3 : n3 ≠ 0 := by omega
      simp only [hn3, ne_eq, not_false_eq_true, if_true]
      rw [evalString_diffdiv (n1 + n3) n2 n3 hn3]
      simp [Nat.cast_add]
  · have hop : op < 4 := hop4 (by simpa using hc)
    simp only [generate_problem, hc, if_false, Bool.false_eq_true]
    interval_cases op
    · exact evalString_add n1 n2
    · exact evalString_sub n1 n2
    · exact evalString_mul n1 n2
    · have hn2 : n2 ≠ 0 := by omega
      simp only [hn2, ne_eq, not_false_eq_true, if_true]
      rw [evalString_div (n1 * n2) n2 hn2, tdiv_natCast,
        Nat.mul_div_cancel n1 (by omega : 0 < n2)]

/-- Witness for C1 at score 0 with draws (3, 4, 5), the simple-addition
branch. -/
theorem C1_round_trip_witness :
    drawsValid 0 ⟨3, 4, 5, false, 0⟩ ∧
      evalString (generate_problem 0 ⟨3, 4, 5, false, 0⟩).1 =
        some (generate_problem 0 ⟨3, 4, 5, false, 0⟩).2.1 :=
  ⟨by decide, C1_round_trip 0 ⟨3, 4, 5, false, 0⟩ (by decide)⟩

/-- C2: for every state and draws, submitting the exact correct answer as
a string — possibly surrounded by whitespace — increments
`correct_answers` by 1, increases `score` by 2 when the current problem's
`is_pemdas` flag is set and by 1 otherwise, and increases
`remaining_time` by exactly one second.  The `i32` range hypotheses state
that `answer` holds an `i32` value, which is true of every Rust state. -/
theorem C2_submit_correct (s : MathQuizApp) (d : Draws) (w1 w2 : List Char)
    (hw1 : ∀ c ∈ w1, isWsCh c = true) (hw2 : ∀ c ∈ w2, isWsCh c = true)
    (hr1 : -(2 ^ 31) ≤ s.answer) (hr2 : s.answer ≤ 2 ^ 31 - 1)
    (hin : s.user_input = String.mk (w1 ++ intChars s.answer ++ w2)) :
    (process_input s d).correct_answers = s.correct_answers + 1 ∧
    (process_input s d).score = s.score + (if s.is_pemdas then 2 else 1) ∧
    (process_input s d).remaining_time = s.remaining_time + secs 1 := by
  have hp : parse_i32 s.user_input = some s.answer := by
    rw [hin]
    exact parse_i32_round s.answer w1 w2 hw1 hw2 hr1 hr2
  simp [process_input, hp]

/-- Witness for C2: answer 7 submitted as the string of a space, the
digit 7 and a space, on a running non-PEMDAS state. -/
theorem C2_submit_correct_witness :
    (process_input
        (⟨"3 + 4", 7, " 7 ", 0, 0, 0, secs 30, true, "", false, false⟩ : MathQuizApp)
        ⟨3, 4, 5, false, 0⟩).correct_answers = 0 + 1 ∧
    (process_input
        (⟨"3 + 4", 7, " 7 ", 0, 0, 0, secs 30, true, "", false, false⟩ : MathQuizApp)
        ⟨3, 4, 5, false, 0⟩).score = 0 + (if false then 2 else 1) ∧
    (process_input
        (⟨"3 + 4", 7, " 7 ", 0, 0, 0, secs 30, true, "", false, false⟩ : MathQuizApp)
        ⟨3, 4, 5, false, 0⟩).remaining_time = secs 30 + secs 1 :=
  C2_submit_correct
    (⟨"3 + 4", 7, " 7 ", 0, 0, 0, secs 30, true, "", false, false⟩ : MathQuizApp)
    ⟨3, 4, 5, false, 0⟩ [' '] [' ']
    (by decide) (by decide) (by decide) (by decide) (by decide)

/-- C3: for every state and draws, submitting either a wrong parsed
integer or text that does not parse as a signed `i32` increments
`wrong_answers` by 1 and sets `remaining_time` to
`max 0 (remaining_time - 2s)` — never negative (in the source,
`checked_sub(..).unwrap_or(ZERO)`) — handled as an ordinary scoring
event by the total function `process_input`, not as an error. -/
theorem C3_submit_wrong_or_invalid (s : MathQuizApp) (d : Draws)
    (h : parse_i32 s.user_input = none ∨
      ∃ v, parse_i32 s.user_input = some v ∧ v ≠ s.answer) :
    (process_input s d).wrong_answers = s.wrong_answers + 1 ∧
    ((process_input s d).remaining_time : Int) =
      max 0 ((s.remaining_time : Int) - (secs 2 : Int)) := by
  have key : (process_input s d).wrong_answers = s.wrong_answers + 1 ∧
      (process_input s d).remaining_time = s.remaining_time - secs 2 := by
    rcases h with hp | ⟨v, hp, hv⟩
    · simp [process_input, hp]
    · simp [process_input, hp, hv]
  refine ⟨key.1, ?_⟩
  rw [key.2]
  simp only [secs]
  omega

/-- Witness for C3: non-numeric text on a running state with a 30-second
budget. -/
theorem C3_submit_wrong_or_invalid_witness :
    (process_input
        (⟨"3 + 4", 7, "abc", 0, 0, 0, secs 30, true, "", false, false⟩ : MathQuizApp)
        ⟨3, 4, 5, false, 0⟩).wrong_answers = 0 + 1 ∧
    ((process_input
        (⟨"3 + 4", 7, "abc", 0, 0, 0, secs 30, true, "", false, false⟩ : MathQuizApp)
        ⟨3, 4, 5, false, 0⟩).remaining_time : Int) =
      max 0 ((secs 30 : Int) - (secs 2 : Int)) :=
  C3_submit_wrong_or_invalid
    (⟨"3 + 4", 7, "abc", 0, 0, 0, secs 30, true, "", false, false⟩ : MathQuizApp)
    ⟨3, 4, 5, false, 0⟩ (Or.inl (by decide))

/-- C4 counterexample: in the parse-failure branch of `process_input`
no new Problem is generated — the claim that every branch "ends by
generating a new Problem from the current score, replacing the current
problem" fails at this concrete state and draw: after submitting the
non-numeric text the question is still the old one, not the freshly
generated expression for the current score. -/
theorem C4_counterexample :
    (process_input
        (⟨"Q", 42, "abc", 0, 0, 0, secs 30, true, "", false, false⟩ : MathQuizApp)
        ⟨3, 4, 5, false, 0⟩).question ≠
      (generate_problem
        (process_input
          (⟨"Q", 42, "abc", 0, 0, 0, secs 30, true, "", false, false⟩ : MathQuizApp)
          ⟨3, 4, 5, false, 0⟩).score
        ⟨3, 4, 5, false, 0⟩).1 := by decide

/-- C4 amended: the correct-answer and wrong-numeric-answer branches of
`process_input` generate a new Problem from the current (possibly
just-updated) score and replace the current problem; the parse-failure
branch keeps the current problem unchanged; every branch clears the
input buffer. -/
theorem C4_amended (s : MathQuizApp) (d : Draws) :
    ((∃ v, parse_i32 s.user_input = some v) →
      ((process_input s d).question = (generate_problem (process_input s d).score d).1 ∧
       (process_input s d).answer = (generate_problem (process_input s d).score d).2.1 ∧
       (process_input s d).is_pemdas = (generate_problem (process_input s d).score d).2.2 ∧
       (process_input s d).user_input = "")) ∧
    (parse_i32 s.user_input = none →
      ((process_input s d).question = s.question ∧
       (process_input s d).answer = s.answer ∧
       (process_input s d).is_pemdas = s.is_pemdas ∧
       (process_input s d).user_input = "")) := by
  constructor
  · rintro ⟨v, hp⟩
    by_cases hv : v = s.answer
    · subst hv
      simp [process_input, hp]
    · simp [process_input, hp, hv]
  · intro hp
    simp [process_input, hp]

/-- Witness for C4 amended: a parsed correct submission replaces the
problem with one generated at the updated score. -/
theorem C4_amended_witness :
    (process_input
        (⟨"3 + 4", 7, " 7 ", 0, 0, 0, secs 30, true, "", false, false⟩ : MathQuizApp)
        ⟨3, 4, 5, false, 0⟩).question =
      (generate_problem
        (process_input
          (⟨"3 + 4", 7, " 7 ", 0, 0, 0, secs 30, true, "", false, false⟩ : MathQuizApp)
          ⟨3, 4, 5, false, 0⟩).score
        ⟨3, 4, 5, false, 0⟩).1 ∧
    (process_input
        (⟨"3 + 4", 7, " 7 ", 0, 0, 0, secs 30, true, "", false, false⟩ : MathQuizApp)
        ⟨3, 4, 5, false, 0⟩).answer =
      (generate_problem
        (process_input
          (⟨"3 + 4", 7, " 7 ", 0, 0, 0, secs 30, true, "", false, false⟩ : MathQuizApp)
          ⟨3, 4, 5, false, 0⟩).score
        ⟨3, 4, 5, false, 0⟩).2.1 ∧
    (process_input
        (⟨"3 + 4", 7, " 7 ", 0, 0, 0, secs 30, true, "", false, false⟩ : MathQuizApp)
        ⟨3, 4, 5, false, 0⟩).is_pemdas =
      (generate_problem
        (process_input
          (⟨"3 + 4", 7, " 7 ", 0, 0, 0, secs 30, true, "", false, false⟩ : MathQuizApp)
          ⟨3, 4, 5, false, 0⟩).score
        ⟨3, 4, 5, false, 0⟩).2.2 ∧
    (process_input
        (⟨"3 + 4", 7, " 7 ", 0, 0, 0, secs 30, true, "", false, false⟩ : MathQuizApp)
        ⟨3, 4, 5, false, 0⟩).user_input = "" :=
  (C4_amended
    (⟨"3 + 4", 7, " 7 ", 0, 0, 0, secs 30, true, "", false, false⟩ : MathQuizApp)
    ⟨3, 4, 5, false, 0⟩).1 ⟨7, by decide⟩

/-! ### Tier case equations and compound-flag helpers -/

theorem tier_lt5 {score : Int} (h : score < 5) : tier score = (1, 10, false) := by
  unfold tier
  rw [if_pos h]

theorem tier_mid {score : Int} (h1 : ¬score < 5) (h2 : score < 10) :
    tier score = (1, 20, true) := by
  unfold tier
  rw [if_neg h1, if_pos h2]

theorem tier_hi {score : Int} (h1 : ¬score < 5) (h2 : ¬score < 10) :
    tier score = (1, 50, true) := by
  unfold tier
  rw [if_neg h1, if_neg h2]

theorem generate_problem_pemdas_simple (score : Int) (d : Draws)
    (h : ((tier score).2.2 && d.compound) = false) :
    (generate_problem score d).2.2 = false := by
  obtain ⟨n1, n2, n3, cb, op⟩ := d
  simp only at h
  simp only [generate_problem, h, Bool.false_eq_true, if_false]
  rcases op with _ | _ | _ | _ | op
  · rfl
  · rfl
  · rfl
  · simp only
    split_ifs <;> rfl
  · rfl

theorem generate_problem_pemdas_eligible (score : Int) (d : Draws)
    (h : (generate_problem score d).2.2 = true) : (tier score).2.2 = true := by
  by_cases hc : ((tier score).2.2 && d.compound) = true
  · exact (Bool.and_eq_true _ _ |>.mp hc).1
  · rw [generate_problem_pemdas_simple score d (by simpa using hc)] at h
    exact absurd h (by simp)

/-- C5: for every score and every draw within the `rand` ranges, the
three operands lie in the tier's range — `[1,10]` when the score is
below 5 (and then `is_pemdas` is always false), `[1,20]` for scores in
`[5,10)`, `[1,50]` for scores at least 10 — and a compound (`is_pemdas`)
problem only arises in the two compound-eligible tiers, i.e. at score at
least 5. -/
theorem C5_difficulty_tiers (score : Int) (d : Draws) (hv : drawsValid score d) :
    (score < 5 →
      (1 ≤ d.n1 ∧ d.n1 ≤ 10 ∧ 1 ≤ d.n2 ∧ d.n2 ≤ 10 ∧ 1 ≤ d.n3 ∧ d.n3 ≤ 10) ∧
      (generate_problem score d).2.2 = false) ∧
    (5 ≤ score → score < 10 →
      (1 ≤ d.n1 ∧ d.n1 ≤ 20 ∧ 1 ≤ d.n2 ∧ d.n2 ≤ 20 ∧ 1 ≤ d.n3 ∧ d.n3 ≤ 20)) ∧
    (10 ≤ score →
      (1 ≤ d.n1 ∧ d.n1 ≤ 50 ∧ 1 ≤ d.n2 ∧ d.n2 ≤ 50 ∧ 1 ≤ d.n3 ∧ d.n3 ≤ 50)) ∧
    ((generate_problem score d).2.2 = true → 5 ≤ score) := by
  obtain ⟨h1a, h1b, h2a, h2b, h3a, h3b, _, _⟩ := hv
  refine ⟨fun h5 => ⟨?_, ?_⟩, fun hge h10 => ?_, fun h10 => ?_, fun hflag => ?_⟩
  · rw [tier_lt5 h5] at h1a h1b h2a h2b h3a h3b
    exact ⟨h1a, h1b, h2a, h2b, h3a, h3b⟩
  · apply generate_problem_pemdas_simple
    rw [tier_lt5 h5]
    simp
  · rw [tier_mid (by omega) h10] at h1a h1b h2a h2b h3a h3b
    exact ⟨h1a, h1b, h2a, h2b, h3a, h3b⟩
  · rw [tier_hi (by omega) (by omega)] at h1a h1b h2a h2b h3a h3b
    exact ⟨h1a, h1b, h2a, h2b, h3a, h3b⟩
  · have hel := generate_problem_pemdas_eligible score d hflag
    by_cases h5 : score < 5
    · rw [tier_lt5 h5] at hel
      exact absurd hel (by simp)
    · omega

/-- Witness for C5 at score 0 with draws (3, 4, 5): the easy-tier bounds
hold and the generated problem is not compound. -/
theorem C5_difficulty_tiers_witness :
    ((1 ≤ 3 ∧ 3 ≤ 10 ∧ 1 ≤ 4 ∧ 4 ≤ 10 ∧ 1 ≤ 5 ∧ 5 ≤ 10 : Prop) ∧
      (generate_problem 0 ⟨3, 4, 5, false, 0⟩).2.2 = false) :=
  (C5_difficulty_tiers 0 ⟨3, 4, 5, false, 0⟩ (by decide)).1 (by decide)

/-- C6: a tick in the running state with `elapsed >= remaining_time`
transitions to game over and stops the countdown (clearing
`start_time`, with all scoring fields untouched); otherwise
`remaining_time` decreases by `elapsed` and the countdown keeps
running; and once the state is game over with the timer stopped, any
sequence of further Start/Tick/SubmitAnswer events leaves the state
completely unchanged until a reset. -/
theorem C6_tick_gameover :
    (∀ (s : MathQuizApp) (e : Nat), s.start_time = true → s.remaining_time ≤ e →
      tickEvent s e = { s with game_over := true, start_time := false }) ∧
    (∀ (s : MathQuizApp) (e : Nat), s.start_time = true → e < s.remaining_time →
      tickEvent s e = { s with remaining_time := s.remaining_time - e }) ∧
    (∀ s : MathQuizApp, s.game_over = true → s.start_time = false →
      ∀ evs : List Event, List.foldl step s evs = s) := by
  refine ⟨?_, ?_, ?_⟩
  · intro s e h1 h2
    simp [tickEvent, h1, h2]
  · intro s e h1 h2
    simp [tickEvent, h1, show ¬s.remaining_time ≤ e by omega]
  · intro s hgo hst
    have hstep : ∀ e : Event, step s e = s := by
      intro e
      cases e with
      | start => simp [step, startEvent, hgo]
      | tick el => simp [step, tickEvent, hst]
      | submit input d => simp [step, submitEvent, hgo]
    intro evs
    induction evs with
    | nil => rfl
    | cons e evs ih => rw [List.foldl_cons, hstep e, ih]

/-- Witness for C6: an expiring tick on a running 5-second state, and a
game-over state left unchanged by a start, a tick and a submission. -/
theorem C6_tick_gameover_witness :
    tickEvent (⟨"1 + 1", 2, "", 0, 0, 0, secs 5, true, "", false, false⟩ : MathQuizApp)
        (secs 7) =
      (⟨"1 + 1", 2, "", 0, 0, 0, secs 5, false, "", true, false⟩ : MathQuizApp) ∧
    List.foldl step (⟨"1 + 1", 2, "", 3, 2, 1, 0, false, "", true, false⟩ : MathQuizApp)
        [Event.start, Event.tick (secs 1), Event.submit "2" ⟨3, 4, 5, false, 0⟩] =
      (⟨"1 + 1", 2, "", 3, 2, 1, 0, false, "", true, false⟩ : MathQuizApp) :=
  ⟨C6_tick_gameover.1
      (⟨"1 + 1", 2, "", 0, 0, 0, secs 5, true, "", false, false⟩ : MathQuizApp)
      (secs 7) rfl (by decide),
   C6_tick_gameover.2.2
      (⟨"1 + 1", 2, "", 3, 2, 1, 0, false, "", true, false⟩ : MathQuizApp)
      rfl rfl
      [Event.start, Event.tick (secs 1), Event.submit "2" ⟨3, 4, 5, false, 0⟩]⟩

/-- C7 counterexample: the claim says a submission in the NotStarted
state (countdown not armed, not game over) performs no scoring
transition, but in the source `display_game` — and with it the
Enter-key handler — is active whenever `game_over` is false, so this
pre-Start submission of non-numeric text bumps `wrong_answers` from 0
to 1. -/
theorem C7_counterexample :
    (submitEvent
        (⟨"3 + 4", 7, "", 0, 0, 0, secs 30, false, "Press Start to begin!", false, false⟩ :
          MathQuizApp)
        "abc" ⟨3, 4, 5, false, 0⟩).wrong_answers = 1 ∧
    (⟨"3 + 4", 7, "", 0, 0, 0, secs 30, false, "Press Start to begin!", false, false⟩ :
        MathQuizApp).wrong_answers = 0 := by decide

/-- C7 amended: a submission is ignored exactly in the GameOver state —
there it changes nothing at all; in every non-game-over state,
including NotStarted before Start is pressed, the submission is
processed by `process_input` just as in the Running state. -/
theorem C7_amended :
    (∀ (s : MathQuizApp) (input : String) (d : Draws), s.game_over = true →
      submitEvent s input d = s) ∧
    (∀ (s : MathQuizApp) (input : String) (d : Draws), s.game_over = false →
      submitEvent s input d = process_input { s with user_input := input } d) := by
  constructor
  · intro s input d h
    simp [submitEvent, h]
  · intro s input d h
    simp [submitEvent, h]

/-- Witness for C7 amended: a submission on a game-over state is a
no-op. -/
theorem C7_amended_witness :
    submitEvent (⟨"1 + 1", 2, "", 3, 2, 1, 0, false, "", true, false⟩ : MathQuizApp)
        "2" ⟨3, 4, 5, false, 0⟩ =
      (⟨"1 + 1", 2, "", 3, 2, 1, 0, false, "", true, false⟩ : MathQuizApp) :=
  C7_amended.1 (⟨"1 + 1", 2, "", 3, 2, 1, 0, false, "", true, false⟩ : MathQuizApp)
    "2" ⟨3, 4, 5, false, 0⟩ rfl

/-- C8: the Restart handler (`*self = MathQuizApp::default()`), valid
from any state, replaces the whole state with a freshly initialized
one: zero score and counters, a 30-second budget, countdown not
running, not game over, a fresh Problem generated at score 0, and an
empty input buffer. -/
theorem C8_reset (s : MathQuizApp) (d : Draws) :
    restart s d = MathQuizApp.default d ∧
    (restart s d).score = 0 ∧
    (restart s d).correct_answers = 0 ∧
    (restart s d).wrong_answers = 0 ∧
    (restart s d).remaining_time = secs 30 ∧
    (restart s d).start_time = false ∧
    (restart s d).game_over = false ∧
    (restart s d).user_input = "" ∧
    (restart s d).question = (generate_problem 0 d).1 ∧
    (restart s d).answer = (generate_problem 0 d).2.1 ∧
    (restart s d).is_pemdas = (generate_problem 0 d).2.2 :=
  ⟨rfl, rfl, rfl, rfl, rfl, rfl, rfl, rfl, rfl, rfl, rfl⟩

/-- One step of any of the three operations never decreases the score or
either counter. -/
theorem step_counters_mono (s : MathQuizApp) (e : Event) :
    s.score ≤ (step s e).score ∧
    s.correct_answers ≤ (step s e).correct_answers ∧
    s.wrong_answers ≤ (step s e).wrong_answers := by
  cases e with
  | start =>
    simp only [step, startEvent]
    split_ifs <;> simp
  | tick el =>
    simp only [step, tickEvent]
    split_ifs <;> simp
  | submit input d =>
    simp only [step, submitEvent]
    split_ifs with hgo
    · simp
    · rcases hp : parse_i32 ({ s with user_input := input } : MathQuizApp).user_input
        with _ | v
      · simp [process_input, hp]
      · by_cases hv : v = s.answer
        · simp only [process_input, hp, hv]
          split_ifs <;> simp
        · simp [process_input, hp, hv]

/-- C9: across every Start, Tick and SubmitAnswer operation, the score
starts at 0 and never decreases — wrong and invalid answers never
decrement it — and `correct_answers` and `wrong_answers` start at 0,
never decrease, and stay non-negative along every event sequence from
the initial state. -/
theorem C9_monotone_counters :
    (∀ d : Draws, (MathQuizApp.default d).score = 0 ∧
      (MathQuizApp.default d).correct_answers = 0 ∧
      (MathQuizApp.default d).wrong_answers = 0) ∧
    (∀ (s : MathQuizApp) (e : Event),
      s.score ≤ (step s e).score ∧
      s.correct_answers ≤ (step s e).correct_answers ∧
      s.wrong_answers ≤ (step s e).wrong_answers) ∧
    (∀ (d : Draws) (evs : List Event),
      0 ≤ (List.foldl step (MathQuizApp.default d) evs).score ∧
      0 ≤ (List.foldl step (MathQuizApp.default d) evs).correct_answers ∧
      0 ≤ (List.foldl step (MathQuizApp.default d) evs).wrong_answers) := by
  have key : ∀ (evs : List Event) (s : MathQuizApp),
      0 ≤ s.score → 0 ≤ s.correct_answers → 0 ≤ s.wrong_answers →
      0 ≤ (List.foldl step s evs).score ∧
      0 ≤ (List.foldl step s evs).correct_answers ∧
      0 ≤ (List.foldl step s evs).wrong_answers := by
    intro evs
    induction evs with
    | nil => intro s h1 h2 h3; exact ⟨h1, h2, h3⟩
    | cons e evs ih =>
      intro s h1 h2 h3
      rw [List.foldl_cons]
      obtain ⟨m1, m2, m3⟩ := step_counters_mono s e
      exact ih (step s e) (le_trans h1 m1) (le_trans h2 m2) (le_trans h3 m3)
  exact ⟨fun d => ⟨rfl, rfl, rfl⟩,
    fun s e => step_counters_mono s e,
    fun d evs => key evs (MathQuizApp.default d) (le_refl 0) (le_refl 0) (le_refl 0)⟩

/-- C10: for every score, the `rand` ranges force all three operands to
be at least 1 (every tier's minimum is 1); consequently the `n2 == 0`
fallback of the simple-division form and the `n3 == 0` zero-answer
fallback of the compound difference-over-divide form are unreachable —
on those operator draws `generate_problem` returns exactly the
division expression with its nonzero divisor (`n2`, resp. `n3`) and
the non-fallback answer. -/
theorem C10_division_fallbacks_unreachable (score : Int) (d : Draws)
    (hv : drawsValid score d) :
    1 ≤ d.n1 ∧ 1 ≤ d.n2 ∧ 1 ≤ d.n3 ∧
    ((((tier score).2.2 && d.compound) = false ∧ d.op = 3) →
      generate_problem score d =
        (String.mk (natDigits (d.n1 * d.n2) ++ ' ' :: '/' :: ' ' :: natDigits d.n2),
         (d.n1 : Int), false)) ∧
    ((((tier score).2.2 && d.compound) = true ∧ d.op = 1) →
      generate_problem score d =
        (String.mk ('(' :: (natDigits (d.n1 + d.n3) ++ ' ' :: '-' :: ' ' ::
            (natDigits d.n2 ++ ')' :: ' ' :: '/' :: ' ' :: natDigits d.n3))),
         Int.tdiv ((d.n1 : Int) + (d.n3 : Int) - (d.n2 : Int)) (d.n3 : Int),
         true)) := by
  obtain ⟨n1, n2, n3, cb, op⟩ := d
  obtain ⟨h1a, h1b, h2a, h2b, h3a, h3b, _, _⟩ := hv
  rw [tier_min] at h1a h2a h3a
  simp only at h1a h2a h3a
  refine ⟨h1a, h2a, h3a, ?_, ?_⟩
  · rintro ⟨hc, hop⟩
    simp only at hc hop
    subst hop
    simp only [generate_problem, hc, Bool.false_eq_true, if_false]
    rw [if_pos (show n2 ≠ 0 by omega)]
  · rintro ⟨hc, hop⟩
    simp only at hc hop
    subst hop
    simp only [generate_problem, hc, if_true]
    rw [if_pos (show n3 ≠ 0 by omega)]

/-- Witness for C10 in the hard tier with draws (2, 3, 4) and the
compound difference-over-divide operator draw. -/
theorem C10_division_fallbacks_unreachable_witness :
    (1 ≤ 2 ∧ 1 ≤ 3 ∧ 1 ≤ 4 : Prop) ∧
    generate_problem 12 ⟨2, 3, 4, true, 1⟩ =
      (String.mk ('(' :: (natDigits (2 + 4) ++ ' ' :: '-' :: ' ' ::
          (natDigits 3 ++ ')' :: ' ' :: '/' :: ' ' :: natDigits 4))),
       Int.tdiv ((2 : Int) + (4 : Int) - (3 : Int)) (4 : Int),
       true) :=
  ⟨⟨(C10_division_fallbacks_unreachable 12 ⟨2, 3, 4, true, 1⟩ (by decide)).1,
    (C10_division_fallbacks_unreachable 12 ⟨2, 3, 4, true, 1⟩ (by decide)).2.1,
    (C10_division_fallbacks_unreachable 12 ⟨2, 3, 4, true, 1⟩ (by decide)).2.2.1⟩,
   (C10_division_fallbacks_unreachable 12 ⟨2, 3, 4, true, 1⟩ (by decide)).2.2.2.2
     ⟨by decide, rfl⟩⟩
